import Mathlib

/-!
Shallow embedding of `src/pipeline.h` (namespace `ppl`), a typed, polling-driven
dataflow pipeline engine.

Modelling conventions:
* `std::size_t` values are `Nat`; the only place the word width matters is
  `std::numeric_limits<std::size_t>::max()`, embedded as the explicit constant
  `SIZE_T_MAX = 2 ^ 64 - 1` (the 64-bit target).
* The node table `std::vector<std::unique_ptr<node>>` is a `List (Option node)`:
  a `none` entry is a slot whose `unique_ptr` has been `reset()` (erased node).
* `std::vector::operator[]` out of bounds is undefined behaviour; operations
  that can reach it return a `cpp_result` whose `ub` constructor marks exactly
  the executions in which the C++ program performs such an access.
* Statically declared C++ types (`int`, `std::string`, `void`) that the spec's
  connection validator compares at run time are embedded as `ctype` tags.
* The exporter (`operator<<`) and the `node_ids` map that only it reads are not
  modelled: no claim mentions them (and the exporter line 217 of the source
  does not even parse).
-/

-- pipeline.h lines 14-19: the error taxonomy of `pipeline_error`.
inductive pipeline_error_kind
  | invalid_node_id
  | no_such_slot
  | slot_already_used
  | connection_type_mismatch
deriving DecidableEq

-- pipeline.h lines 28-37: result of one poll of a node.
inductive poll
  | ready
  | empty
  | closed
deriving DecidableEq

-- Runtime tags for the statically declared slot/output C++ types.
inductive ctype
  | cInt
  | cString
  | cVoid
deriving DecidableEq

/-- Dynamic shape of a node, as far as the scheduler needs it.
Modelled from the spec: concrete node implementations are external to the
repository (`node::poll_next` is a pure-virtual declaration in src/pipeline.h).
`src pending` is a source that will report `ready` for `pending` more ticks and
then (permanently) `closed` — the spec's "every source eventually closes"
(§4.5, §8) is structural because `pending : Nat` is finite. `snk` is a
sink-shaped consumer (declared input slots, `void` output). -/
inductive node_kind
  | src (pending : Nat)
  | snk
deriving DecidableEq

/-- A graph participant (pipeline.h lines 39-57 plus the `producer`/`component`
shape data of lines 60-88): a display name, the declared output type
(`cVoid` for sinks, i.e. `producer<void>`), the declared input-type tuple, the
per-slot upstream bindings the private `connect` records, and the polling
behaviour `kind`. -/
structure node where
  name : String
  out_ty : ctype
  in_tys : List ctype
  bindings : List (Option Nat)
  kind : node_kind
deriving DecidableEq

/-- `source<Output>` shape (pipeline.h lines 84-88): empty input tuple,
no bindings, source polling behaviour. -/
def source_node (nm : String) (out : ctype) (pending : Nat) : node :=
  { name := nm, out_ty := out, in_tys := [], bindings := [], kind := node_kind.src pending }

/-- `sink<Input>` shape (pipeline.h line 82): one declared input slot,
`void` output, initially unbound slot. -/
def sink_node (nm : String) (inp : ctype) : node :=
  { name := nm, out_ty := ctype.cVoid, in_tys := [inp], bindings := [none], kind := node_kind.snk }

/-- The pipeline graph state (pipeline.h lines 195-204): the owned node table
and the recorded connection list. A connection record is `(src, dst, slot)`;
the C++ record stores the two `const node*` pointers, which identify exactly
the table entries the handles named, so handles stand in for the pointers. -/
structure pipeline where
  nodes : List (Option node)
  connections : List (Nat × Nat × Int)
deriving DecidableEq

/-- Result of running a C++ member function: `ub` marks an execution that
performs an out-of-bounds `std::vector` access (undefined behaviour). -/
inductive cpp_result (α : Type)
  | ok (a : α)
  | ub
deriving DecidableEq

/-- `std::numeric_limits<std::size_t>::max()` on the 64-bit target. -/
def SIZE_T_MAX : Nat := 2 ^ 64 - 1

/-- pipeline.h lines 120-122: the distinguished invalid handle.
(A member function in C++, but it reads no object state.) -/
def pipeline.invalid_node_id : Nat := SIZE_T_MAX

/-- pipeline.h lines 125-127: `is_valid` compares the handle against the
sentinel only. (A member function in C++, but it reads no object state —
in particular it does not consult the node table.) -/
def pipeline.is_valid (id : Nat) : Bool :=
  id != pipeline.invalid_node_id

/-- pipeline.h lines 130-132: `make_node_id` returns its argument. -/
def pipeline.make_node_id (value : Nat) : Nat :=
  value

/-- pipeline.h lines 147-155: construct the node, append it to the table,
return the handle minted from the pre-push table size. (The `concrete_node` /
`is_node` constraints are compile-time; the embedding receives the already
constructed node.) -/
def pipeline.create_node (p : pipeline) (n : node) : pipeline × Nat :=
  ({ p with nodes := p.nodes ++ [some n] }, pipeline.make_node_id p.nodes.length)

/-- pipeline.h lines 157-161: `if (is_valid(n_id)) { nodes[n_id].reset(); }`.
In range, resetting the `unique_ptr` leaves the slot empty; out of range the
indexing is undefined behaviour. -/
def pipeline.erase_node (p : pipeline) (n_id : Nat) : cpp_result pipeline :=
  if pipeline.is_valid n_id then
    match p.nodes[n_id]? with
    | some _ => cpp_result.ok { p with nodes := p.nodes.set n_id none }
    | none => cpp_result.ub
  else cpp_result.ok p

/-- pipeline.h lines 163-168: `if (is_valid(n_id)) return nodes[n_id].get();
return nullptr;`. The returned `ok` payload is the slot content: `some n` is a
live node pointer, `none` is `nullptr` (erased slot, or the `else` branch). -/
def pipeline.get_node (p : pipeline) (n_id : Nat) : cpp_result (Option node) :=
  if pipeline.is_valid n_id then
    match p.nodes[n_id]? with
    | some slot => cpp_result.ok slot
    | none => cpp_result.ub
  else cpp_result.ok none

/-- Modelled from the spec: the destination node's private
`connect(source, slot)` "records the upstream binding" (§4.3 step 5, §4.1).
`node::connect` is a pure-virtual declaration in src/pipeline.h and the
concrete implementations that record the binding are external to the
repository. A negative or out-of-range slot index leaves the bindings
untouched (the spec leaves that case to the validator, which was supposed to
have rejected it). -/
def node.connect_slot (n : node) (src_id : Nat) (slot : Int) : node :=
  if slot < 0 then n
  else { n with bindings := n.bindings.set slot.toNat (some src_id) }

/-- Result of `pipeline::connect`: `ok` with the post-state, `err` for a thrown
`pipeline_error` (carrying the graph state at the moment of the throw), or
`ub` when the call performs an out-of-bounds table access. -/
inductive connect_result
  | ok (p : pipeline)
  | err (k : pipeline_error_kind) (p : pipeline)
  | ub
deriving DecidableEq

/-- pipeline.h lines 171-182: resolve both handles via `get_node`; if both are
live, invoke the destination's private `connect`, otherwise throw
`invalid_node_id`. Note what the source does NOT do: no slot-arity check, no
slot-already-used check, no output/input type comparison, and no append to the
`connections` list. -/
def pipeline.connect (p : pipeline) (src dst : Nat) (slot : Int) : connect_result :=
  match pipeline.get_node p src with
  | cpp_result.ub => connect_result.ub
  | cpp_result.ok src_slot =>
    match pipeline.get_node p dst with
    | cpp_result.ub => connect_result.ub
    | cpp_result.ok dst_slot =>
      match src_slot, dst_slot with
      | some _, some d =>
          connect_result.ok
            { p with nodes := p.nodes.set dst (some (node.connect_slot d src slot)) }
      | _, _ => connect_result.err pipeline_error_kind.invalid_node_id p

-- ------------------------------------------------------------------
-- Node-table operation sequences (for the handle-reuse invariant).
-- ------------------------------------------------------------------

/-- One host-issued node-table operation. -/
inductive table_op
  | create (n : node)
  | erase (id : Nat)

/-- Run a sequence of `create_node` / `erase_node` calls, collecting the
handles `create_node` hands out, and propagating undefined behaviour. -/
def pipeline.run_ops : List table_op → pipeline → cpp_result (pipeline × List Nat)
  | [], p => cpp_result.ok (p, [])
  | table_op.create n :: rest, p =>
    match pipeline.run_ops rest (pipeline.create_node p n).1 with
    | cpp_result.ok (q, hs) => cpp_result.ok (q, (pipeline.create_node p n).2 :: hs)
    | cpp_result.ub => cpp_result.ub
  | table_op.erase id :: rest, p =>
    match pipeline.erase_node p id with
    | cpp_result.ok p2 => pipeline.run_ops rest p2
    | cpp_result.ub => cpp_result.ub

-- ------------------------------------------------------------------
-- Scheduler. Modelled from the spec: `step()` is only *declared* in
-- src/pipeline.h (line 186); `run()` (lines 187-190) is `while (!step()) {}`.
-- The model follows §4.5 and the §8 scenarios: each tick polls every live
-- node once; an unconnected input slot, a slot whose upstream has been
-- erased, and a slot whose upstream has closed are permanently closed for
-- the consumer; a sink-shaped node reports `closed` exactly when every one
-- of its input slots is closed; completion holds when every live terminal
-- node (no outgoing recorded connection) has reported `closed`.
-- ------------------------------------------------------------------

/-- Modelled from the spec (§4.5, §8 scenario 3): whether an input slot is
permanently closed — unbound, upstream erased or out of the table, upstream a
closed source, or upstream not a producer of values at all. -/
def pipeline.slot_closed (p : pipeline) (b : Option Nat) : Bool :=
  match b with
  | none => true
  | some u =>
    match p.nodes[u]? with
    | some (some up) =>
      match up.kind with
      | node_kind.src pending => pending == 0
      | node_kind.snk => true
    | _ => true

/-- Modelled from the spec: the poll result a node reports this tick, as a
function of the current graph state. A source reports `ready` while it still
has pending values and `closed` afterwards (monotonic exhaustion, §4.1); a
sink-shaped node reports `closed` exactly when all its slots are closed and
`empty` otherwise (only closedness feeds the completion predicate). -/
def pipeline.node_status (p : pipeline) (n : node) : poll :=
  match n.kind with
  | node_kind.src pending => if pending == 0 then poll.closed else poll.ready
  | node_kind.snk =>
      if n.bindings.all (pipeline.slot_closed p) then poll.closed else poll.empty

/-- Advance one node by one poll: a source consumes one pending value. -/
def node.tick1 (n : node) : node :=
  match n.kind with
  | node_kind.src pending => { n with kind := node_kind.src (pending - 1) }
  | node_kind.snk => n

/-- Advance `n` polls at once (used to characterise iterated ticks). -/
def node.tick_n (n : Nat) (m : node) : node :=
  match m.kind with
  | node_kind.src pending => { m with kind := node_kind.src (pending - n) }
  | node_kind.snk => m

/-- One tick: poll every live node exactly once (§4.5). Polls only advance
per-node state, so the fixed creation-order traversal is the per-slot map. -/
def pipeline.tick (p : pipeline) : pipeline :=
  { p with nodes := p.nodes.map (Option.map node.tick1) }

/-- Whether any recorded connection leaves `id` (a non-terminal node). -/
def pipeline.has_outgoing (p : pipeline) (id : Nat) : Bool :=
  p.connections.any (fun c => c.1 == id)

/-- Whether the live node in table slot `id` poses no obstacle to completion:
erased slots are skipped, non-terminal nodes are not consulted, and a live
terminal node must have reported `closed` (§4.5). -/
def pipeline.node_done (p : pipeline) (id : Nat) : Bool :=
  match p.nodes[id]? with
  | some (some n) =>
      pipeline.has_outgoing p id || (pipeline.node_status p n == poll.closed)
  | _ => true

/-- Completion: every live terminal node has reported `closed` (§4.5). -/
def pipeline.complete (p : pipeline) : Bool :=
  (List.range p.nodes.length).all (pipeline.node_done p)

/-- `step()`: perform one tick and report whether the statuses the tick's
polls reported show the graph complete (§4.5). -/
def pipeline.step (p : pipeline) : pipeline × Bool :=
  (pipeline.tick p, pipeline.complete p)

/-- Iterate `tick` (the state part of `step`) `n` times. -/
def pipeline.tick_iter : Nat → pipeline → pipeline
  | 0, p => p
  | n + 1, p => pipeline.tick_iter n (pipeline.tick p)

/-- Total pending values across all live sources: a fuel bound for `run`. -/
def pipeline.sum_pending (p : pipeline) : Nat :=
  (p.nodes.map (fun s =>
    match s with
    | some n =>
      match n.kind with
      | node_kind.src pending => pending
      | node_kind.snk => 0
    | none => 0)).sum

/-- Fuel-bounded `while (!step()) {}` loop body. -/
def pipeline.run_fuel : Nat → pipeline → pipeline
  | 0, p => p
  | f + 1, p =>
    if pipeline.complete p then pipeline.tick p
    else pipeline.run_fuel f (pipeline.tick p)

/-- pipeline.h lines 187-190: `run()` is `while (!step()) {}`. The loop is
modelled with explicit fuel `sum_pending p + 1`; the C9 theorem shows this
fuel always suffices, i.e. `run` is exactly "call `step` repeatedly until it
reports completion, then return". -/
def pipeline.run (p : pipeline) : pipeline :=
  pipeline.run_fuel (pipeline.sum_pending p + 1) p

/-- A graph is source-fed when every recorded connection leaves a (live)
source node — what the spec's type-checked `connect` guarantees, since only
producers of values can be upstream (§4.3). -/
def pipeline.src_only (p : pipeline) : Bool :=
  p.connections.all fun c =>
    match p.nodes[c.1]? with
    | some (some n) =>
      match n.kind with
      | node_kind.src _ => true
      | node_kind.snk => false
    | _ => true

/-- Whether the live node in slot `id`, if sink-shaped, reports `closed`. -/
def pipeline.sink_done (p : pipeline) (id : Nat) : Bool :=
  match p.nodes[id]? with
  | some (some n) =>
    match n.kind with
    | node_kind.snk => pipeline.node_status p n == poll.closed
    | node_kind.src _ => true
  | _ => true

/-- Every live sink-shaped node reports `closed`. -/
def pipeline.all_sinks_closed (p : pipeline) : Bool :=
  (List.range p.nodes.length).all (pipeline.sink_done p)

-- ------------------------------------------------------------------
-- Sample nodes and graphs used by the concrete theorems.
-- ------------------------------------------------------------------

/-- A `source<int>` instance ("emits 3 values then closes"). -/
def nodeA : node := source_node "A" ctype.cInt 3

/-- A `sink<std::string>` instance. -/
def nodeB_string : node := sink_node "B" ctype.cString

/-- A `sink<int>` instance. -/
def nodeB_int : node := sink_node "B" ctype.cInt

-- ------------------------------------------------------------------
-- Claim theorems.
-- ------------------------------------------------------------------

/-- C1. The claim says a `connect` whose endpoints are live but whose source
output type (`int`) differs from the destination slot type (`std::string`)
fails with `connection_type_mismatch`. The source code performs no type
comparison at all: with `source<int>` at handle 0 and `sink<std::string>` at
handle 1, `connect(0, 1, 0)` succeeds — it resolves both handles, invokes the
destination's private `connect` (recording the binding), and raises nothing.
This theorem evaluates the embedded `pipeline.connect` at that failing input. -/
theorem claim_C1 :
    pipeline.connect { nodes := [some nodeA, some nodeB_string], connections := [] } 0 1 0
      = connect_result.ok
          { nodes := [some nodeA, some { nodeB_string with bindings := [some 0] }],
            connections := [] } := by
  decide

/-- C3. The claim says a fully validated `connect` both invokes the
destination's private `connect` and appends a `(src, dst, slot)` record to the
connection list. The source code does the former but never appends to
`connections` (nothing in src/pipeline.h ever writes that vector): with
`source<int>` at 0 and `sink<int>` at 1 — a call every §4.3 check would pass —
the call succeeds with the binding recorded, yet the connection list is still
empty. -/
theorem claim_C3 :
    pipeline.connect { nodes := [some nodeA, some nodeB_int], connections := [] } 0 1 0
      = connect_result.ok
          { nodes := [some nodeA, some { nodeB_int with bindings := [some 0] }],
            connections := [] }
    ∧ ({ nodes := [some nodeA, some { nodeB_int with bindings := [some 0] }],
         connections := [] } : pipeline).connections = [] := by
  exact ⟨by decide, rfl⟩

/-- C4. The claim says `connect` fails with `invalid_node_id` exactly when a
handle does not resolve to a live node. For the out-of-range handle 1 on a
one-node table, the source code instead performs an out-of-bounds
`nodes[1]` access inside `get_node` (undefined behaviour) — `is_valid` only
compares against the sentinel — so the call does not fail with
`invalid_node_id`. -/
theorem claim_C4 :
    pipeline.connect { nodes := [some nodeA], connections := [] } 1 0 0
      = connect_result.ub := by
  decide

/-- C5 counterexample. The claim says `is_valid h` is false iff `h` is the
sentinel **or `h` has been erased**. Erasing the node at handle 0 leaves the
slot empty, yet `is_valid 0` is still `true` (the source's `is_valid` only
compares against the sentinel), refuting the claim at this input. -/
theorem claim_C5_counterexample :
    pipeline.erase_node { nodes := [some nodeA], connections := [] } 0
      = cpp_result.ok { nodes := [none], connections := [] }
    ∧ ({ nodes := [none], connections := [] } : pipeline).nodes[0]? = some none
    ∧ pipeline.is_valid 0 = true := by
  exact ⟨by decide, rfl, by decide⟩

/-- C5 (amended): `is_valid h` is false iff `h` equals the invalid sentinel —
erasure does not affect `is_valid` — while `get_node` does return no node both
for the sentinel and for an erased (in-table) handle. -/
theorem claim_C5 (p : pipeline) (h : Nat) :
    (pipeline.is_valid h = false ↔ h = pipeline.invalid_node_id)
    ∧ pipeline.get_node p pipeline.invalid_node_id = cpp_result.ok none
    ∧ (p.nodes[h]? = some none → pipeline.get_node p h = cpp_result.ok none) := by
  refine ⟨?_, ?_, ?_⟩
  · unfold pipeline.is_valid
    rw [Bool.eq_false_iff, Ne, bne_iff_ne, not_not]
  · unfold pipeline.get_node pipeline.is_valid
    simp
  · intro hslot
    unfold pipeline.get_node
    by_cases hv : pipeline.is_valid h
    · rw [if_pos hv, hslot]
    · rw [if_neg hv]

/-- C5 witness: the amended statement applied to a table whose slot 0 has been
erased. -/
theorem claim_C5_witness :
    ({ nodes := [none], connections := [] } : pipeline).nodes[0]? = some none
    ∧ pipeline.get_node { nodes := [none], connections := [] } 0 = cpp_result.ok none :=
  ⟨rfl, (claim_C5 { nodes := [none], connections := [] } 0).2.2 rfl⟩

/-- C6. The claim says `get_node` is total, never throws and performs no
out-of-bounds access of the node table. On an empty table, `get_node 0` is
reached with `is_valid 0 = true` (the guard only rejects the sentinel), so the
source executes the out-of-bounds `nodes[0]` (undefined behaviour) instead of
returning no node. -/
theorem claim_C6 :
    pipeline.get_node { nodes := [], connections := [] } 0 = cpp_result.ub := by
  decide

/-- C8. The claim says `erase_node` affects at most the slot named by its
argument and is a harmless no-op on handles not naming a live slot. On an
empty table, `erase_node 0` passes the `is_valid` guard and executes the
out-of-bounds `nodes[0].reset()` (undefined behaviour) instead of a no-op. -/
theorem claim_C8 :
    pipeline.erase_node { nodes := [], connections := [] } 0 = cpp_result.ub := by
  decide

/-- C10. `make_node_id` and `is_valid` are pure functions of the handle value
(in the embedding they take no pipeline state, mirroring the member functions
that read no members): `make_node_id v = v` for every `v`, and `is_valid h`
holds exactly for `h` different from `numeric_limits<size_t>::max()` —
including handles never returned by `create_node` and erased handles. -/
theorem claim_C10 :
    (∀ v : Nat, pipeline.make_node_id v = v)
    ∧ (∀ h : Nat, pipeline.is_valid h = true ↔ h ≠ pipeline.invalid_node_id)
    ∧ pipeline.invalid_node_id = 2 ^ 64 - 1 := by
  refine ⟨fun v => rfl, fun h => ?_, rfl⟩
  unfold pipeline.is_valid
  exact bne_iff_ne

/-- C2. A `connect` call that fails (throws a `pipeline_error`) leaves the
connection list and every node's input-slot bindings exactly as they were: the
source throws before touching any state (in the embedding, the `err` result
carries the graph state at the throw). In the source as written the only
reachable failure is `invalid_node_id` — the other three §4.3 checks are not
implemented (see C1/C3) — and for it the property holds. -/
theorem claim_C2 (p q : pipeline) (src dst : Nat) (slot : Int) (k : pipeline_error_kind)
    (h : pipeline.connect p src dst slot = connect_result.err k q) :
    q.connections = p.connections ∧ q.nodes = p.nodes := by
  unfold pipeline.connect at h
  split at h
  · exact absurd h (by simp)
  · split at h
    · exact absurd h (by simp)
    · split at h
      · exact absurd h (by simp)
      · injection h with h1 h2
        subst h2
        exact ⟨rfl, rfl⟩

/-- C2 witness: connecting out of an erased slot throws `invalid_node_id` and
leaves the (one erased slot) graph state unchanged. -/
theorem claim_C2_witness :
    pipeline.connect { nodes := [none], connections := [] } 0 0 0
      = connect_result.err pipeline_error_kind.invalid_node_id
          { nodes := [none], connections := [] }
    ∧ (({ nodes := [none], connections := [] } : pipeline).connections
         = ({ nodes := [none], connections := [] } : pipeline).connections
       ∧ ({ nodes := [none], connections := [] } : pipeline).nodes
         = ({ nodes := [none], connections := [] } : pipeline).nodes) :=
  ⟨by decide, claim_C2 { nodes := [none], connections := [] }
    { nodes := [none], connections := [] } 0 0 0 pipeline_error_kind.invalid_node_id
    (by decide)⟩

/-- Invariant of `create_node` / `erase_node` sequences: the table never
shrinks, every handle handed out is at least the initial table size, the
handed-out handles are strictly increasing (`create_node` mints the current
table size, which only grows), and an empty slot stays empty forever
(`create_node` only appends; `erase_node` only empties). -/
theorem run_ops_invariant (ops : List table_op) :
    ∀ (p q : pipeline) (hs : List Nat),
      pipeline.run_ops ops p = cpp_result.ok (q, hs) →
      p.nodes.length ≤ q.nodes.length
      ∧ (∀ a ∈ hs, p.nodes.length ≤ a)
      ∧ List.Pairwise (· < ·) hs
      ∧ (∀ i : Nat, p.nodes[i]? = some none → q.nodes[i]? = some none) := by
  induction ops with
  | nil =>
    intro p q hs h
    unfold pipeline.run_ops at h
    injection h with h1
    injection h1 with h2 h3
    subst h2; subst h3
    exact ⟨le_refl _, by simp, List.Pairwise.nil, fun i hi => hi⟩
  | cons op rest ih =>
    intro p q hs h
    cases op with
    | create n =>
      unfold pipeline.run_ops at h
      split at h
      next q' hs' hr =>
        injection h with h1
        injection h1 with h2 h3
        subst h2; subst h3
        have IH := ih _ _ _ hr
        simp only [pipeline.create_node, pipeline.make_node_id, List.length_append,
          List.length_cons, List.length_nil] at IH
        obtain ⟨hlen, hlb, hpw, hpers⟩ := IH
        refine ⟨by omega, ?_, ?_, ?_⟩
        · intro a ha
          rcases List.mem_cons.mp ha with rfl | ha'
          · exact le_refl _
          · exact Nat.le_of_succ_le (hlb a ha')
        · exact List.pairwise_cons.mpr
            ⟨fun b hb => Nat.lt_of_succ_le (hlb b hb), hpw⟩
        · intro i hi
          apply hpers
          have hilt : i < p.nodes.length := by
            rcases List.getElem?_eq_some_iff.mp hi with ⟨hl, _⟩
            exact hl
          simpa [pipeline.create_node, List.getElem?_append_left hilt] using hi
      next hr =>
        exact absurd h (by simp)
    | erase id =>
      unfold pipeline.run_ops at h
      split at h
      next p2 he =>
        unfold pipeline.erase_node at he
        split at he
        · split at he
          next nd hnd =>
            injection he with he1
            subst he1
            have IH := ih _ _ _ h
            simp only [List.length_set] at IH
            obtain ⟨hlen, hlb, hpw, hpers⟩ := IH
            refine ⟨hlen, hlb, hpw, ?_⟩
            intro i hi
            apply hpers
            by_cases hieq : id = i
            · subst hieq
              have hl : id < p.nodes.length := by
                rcases List.getElem?_eq_some_iff.mp hnd with ⟨hl, _⟩
                exact hl
              simpa using List.getElem?_set_self hl
            · simpa [List.getElem?_set_ne hieq] using hi
          next hnd =>
            exact absurd he (by simp)
        · injection he with he1
          subst he1
          exact ih _ _ _ h
      next he =>
        exact absurd h (by simp)

/-- C7. Along any defined sequence of `create_node` / `erase_node` calls: a
slot that is empty (its node erased) stays permanently empty and a stale
handle to it resolves to no node via `get_node`; and the handles `create_node`
hands out are strictly increasing and at least the starting table size, so an
erased (or any prior) handle value is never handed out again for a different
node. -/
theorem claim_C7 (ops : List table_op) (p q : pipeline) (hs : List Nat)
    (h : pipeline.run_ops ops p = cpp_result.ok (q, hs)) :
    (∀ i : Nat, p.nodes[i]? = some none → pipeline.get_node q i = cpp_result.ok none)
    ∧ List.Pairwise (· < ·) hs
    ∧ (∀ a ∈ hs, p.nodes.length ≤ a) := by
  obtain ⟨hlen, hlb, hpw, hpers⟩ := run_ops_invariant ops p q hs h
  refine ⟨?_, hpw, hlb⟩
  intro i hi
  have hq := hpers i hi
  unfold pipeline.get_node
  by_cases hv : pipeline.is_valid i
  · rw [if_pos hv, hq]
  · rw [if_neg hv]

/-- C7 witness: create a node (handle 0), erase it, create another node; the
erased slot stays empty and resolves to no node, and the second `create_node`
returns the fresh handle 1, not 0. -/
theorem claim_C7_witness :
    pipeline.run_ops [table_op.create nodeA, table_op.erase 0, table_op.create nodeA]
        { nodes := [], connections := [] }
      = cpp_result.ok ({ nodes := [none, some nodeA], connections := [] }, [0, 1])
    ∧ ((∀ i : Nat, ({ nodes := [], connections := [] } : pipeline).nodes[i]? = some none →
          pipeline.get_node { nodes := [none, some nodeA], connections := [] } i
            = cpp_result.ok none)
       ∧ List.Pairwise (· < ·) [0, 1]
       ∧ (∀ a ∈ [0, 1], ({ nodes := [], connections := [] } : pipeline).nodes.length ≤ a)) :=
  ⟨by decide,
    claim_C7 [table_op.create nodeA, table_op.erase 0, table_op.create nodeA]
      { nodes := [], connections := [] }
      { nodes := [none, some nodeA], connections := [] } [0, 1] (by decide)⟩

-- ------------------------------------------------------------------
-- Scheduler lemmas for C9.
-- ------------------------------------------------------------------

/-- Ticking does not touch the connection list. -/
theorem tick_connections (p : pipeline) : (pipeline.tick p).connections = p.connections :=
  rfl

/-- Iterated ticking does not touch the connection list. -/
theorem tick_iter_connections (n : Nat) :
    ∀ p : pipeline, (pipeline.tick_iter n p).connections = p.connections := by
  induction n with
  | zero => intro p; rfl
  | succ n ih => intro p; exact ih (pipeline.tick p)

/-- One tick acts slotwise on the node table. -/
theorem tick_nodes_get (p : pipeline) (i : Nat) :
    (pipeline.tick p).nodes[i]? = (p.nodes[i]?).map (Option.map node.tick1) := by
  simp [pipeline.tick, List.getElem?_map]

/-- `tick_n 0` changes nothing. -/
theorem tick_n_zero (m : node) : node.tick_n 0 m = m := by
  cases m with
  | mk nm o i b k => cases k <;> simp [node.tick_n]

/-- A single poll followed by `n` more is `n + 1` polls. -/
theorem tick1_tick_n (n : Nat) (m : node) :
    node.tick_n n (node.tick1 m) = node.tick_n (n + 1) m := by
  cases m with
  | mk nm o i b k =>
    cases k with
    | src pending =>
      simp [node.tick1, node.tick_n, Nat.sub_sub, Nat.add_comm]
    | snk => rfl

/-- Iterated ticking acts slotwise as `tick_n`. -/
theorem tick_iter_nodes_get (n : Nat) :
    ∀ (p : pipeline) (i : Nat),
      (pipeline.tick_iter n p).nodes[i]? = (p.nodes[i]?).map (Option.map (node.tick_n n)) := by
  induction n with
  | zero =>
    intro p i
    have h0 : node.tick_n 0 = id := funext tick_n_zero
    simp [pipeline.tick_iter, h0, Option.map_id]
  | succ n ih =>
    intro p i
    have h1 : pipeline.tick_iter (n + 1) p = pipeline.tick_iter n (pipeline.tick p) := rfl
    rw [h1, ih (pipeline.tick p) i, tick_nodes_get, Option.map_map]
    have h2 : Option.map (node.tick_n n) ∘ Option.map node.tick1
        = Option.map (node.tick_n (n + 1)) := by
      funext x
      rw [Function.comp_apply, Option.map_map]
      have h3 : node.tick_n n ∘ node.tick1 = node.tick_n (n + 1) := funext (tick1_tick_n n)
      rw [h3]
    rw [h2]

/-- Ticking `n + 1` times is one tick after `n` ticks. -/
theorem tick_iter_succ (n : Nat) :
    ∀ p : pipeline, pipeline.tick_iter (n + 1) p = pipeline.tick (pipeline.tick_iter n p) := by
  induction n with
  | zero => intro p; rfl
  | succ n ih => intro p; exact ih (pipeline.tick p)

/-- Every live source's pending count is bounded by `sum_pending`. -/
theorem pending_le_sum (p : pipeline) (i : Nat) (nd : node) (k : Nat)
    (h1 : p.nodes[i]? = some (some nd)) (h2 : nd.kind = node_kind.src k) :
    k ≤ pipeline.sum_pending p := by
  unfold pipeline.sum_pending
  have hmem : some nd ∈ p.nodes := by
    rcases List.getElem?_eq_some_iff.mp h1 with ⟨hl, hget⟩
    exact hget ▸ List.getElem_mem hl
  have hmap := List.mem_map_of_mem
    (fun s : Option node =>
      match s with
      | some n =>
        match n.kind with
        | node_kind.src pending => pending
        | node_kind.snk => 0
      | none => 0) hmem
  simp only [h2] at hmap
  exact List.single_le_sum (fun x _ => Nat.zero_le x) _ hmap

/-- After `sum_pending p` ticks every input slot is permanently closed. -/
theorem slot_closed_at_sum (p : pipeline) (b : Option Nat) :
    pipeline.slot_closed (pipeline.tick_iter (pipeline.sum_pending p) p) b = true := by
  cases b with
  | none => rfl
  | some u =>
    simp only [pipeline.slot_closed]
    rw [tick_iter_nodes_get]
    cases hu : p.nodes[u]? with
    | none => simp
    | some su =>
      cases su with
      | none => simp
      | some m =>
        cases hmk : m.kind with
        | src k2 =>
          have hk2 : k2 - pipeline.sum_pending p = 0 :=
            Nat.sub_eq_zero_of_le (pending_le_sum p u m k2 hu hmk)
          simp [node.tick_n, hmk, hk2]
        | snk =>
          simp [node.tick_n, hmk]

/-- After `sum_pending p` ticks every live node reports `closed`. -/
theorem status_closed_at_sum (p : pipeline) (i : Nat) (nd : node)
    (h1 : (pipeline.tick_iter (pipeline.sum_pending p) p).nodes[i]? = some (some nd)) :
    pipeline.node_status (pipeline.tick_iter (pipeline.sum_pending p) p) nd = poll.closed := by
  rw [tick_iter_nodes_get] at h1
  cases hp : p.nodes[i]? with
  | none => rw [hp] at h1; simp at h1
  | some s =>
    rw [hp] at h1
    cases s with
    | none => simp at h1
    | some nd0 =>
      simp only [Option.map_some'] at h1
      have hnd : nd = node.tick_n (pipeline.sum_pending p) nd0 := by
        injection h1 with h1a
        injection h1a with h1b
        exact h1b.symm
      subst hnd
      cases hmk : nd0.kind with
      | src k =>
        have hk0 : k - pipeline.sum_pending p = 0 :=
          Nat.sub_eq_zero_of_le (pending_le_sum p i nd0 k hp hmk)
        simp [pipeline.node_status, node.tick_n, hmk, hk0]
      | snk =>
        have hall2 : nd0.bindings.all
            (pipeline.slot_closed (pipeline.tick_iter (pipeline.sum_pending p) p)) = true :=
          List.all_eq_true.mpr (fun b _ => slot_closed_at_sum p b)
        simp [pipeline.node_status, node.tick_n, hmk, hall2]

/-- After `sum_pending p` ticks the graph is complete. -/
theorem complete_at_sum (p : pipeline) :
    pipeline.complete (pipeline.tick_iter (pipeline.sum_pending p) p) = true := by
  unfold pipeline.complete
  rw [List.all_eq_true]
  intro id hid
  unfold pipeline.node_done
  cases hq : (pipeline.tick_iter (pipeline.sum_pending p) p).nodes[id]? with
  | none => rfl
  | some s =>
    cases s with
    | none => rfl
    | some n =>
      have hst := status_closed_at_sum p id n hq
      simp [hst]

/-- A closed input slot stays closed across a tick (monotonic exhaustion). -/
theorem slot_closed_tick (p : pipeline) (b : Option Nat)
    (h : pipeline.slot_closed p b = true) :
    pipeline.slot_closed (pipeline.tick p) b = true := by
  cases b with
  | none => rfl
  | some u =>
    simp only [pipeline.slot_closed] at h ⊢
    rw [tick_nodes_get]
    cases hu : p.nodes[u]? with
    | none => simp
    | some su =>
      cases su with
      | none => simp
      | some m =>
        simp only [hu] at h
        cases hmk : m.kind with
        | src k =>
          simp only [hmk] at h
          have hk : k = 0 := by simpa using h
          simp [node.tick1, hmk, hk]
        | snk =>
          simp [node.tick1, hmk]

/-- A node that reported `closed` still reports `closed` after a tick. -/
theorem status_closed_tick (p : pipeline) (n : node)
    (h : pipeline.node_status p n = poll.closed) :
    pipeline.node_status (pipeline.tick p) (node.tick1 n) = poll.closed := by
  cases hk : n.kind with
  | src k =>
    simp only [pipeline.node_status, hk] at h
    by_cases h0 : k = 0
    · simp [pipeline.node_status, node.tick1, hk, h0]
    · exfalso
      rw [if_neg (by simpa using h0)] at h
      exact poll.noConfusion h
  | snk =>
    simp only [pipeline.node_status, hk] at h
    have hall : n.bindings.all (pipeline.slot_closed p) = true := by
      by_cases hb : n.bindings.all (pipeline.slot_closed p) = true
      · exact hb
      · exfalso
        rw [if_neg (by simpa using hb)] at h
        exact poll.noConfusion h
    have ht : node.tick1 n = n := by simp [node.tick1, hk]
    rw [ht]
    have hall2 : n.bindings.all (pipeline.slot_closed (pipeline.tick p)) = true := by
      rw [List.all_eq_true] at hall ⊢
      exact fun b hb => slot_closed_tick p b (hall b hb)
    simp [pipeline.node_status, hk, hall2]

/-- A slot whose sink-shaped node reported `closed` still does after a tick. -/
theorem sink_done_tick (p : pipeline) (id : Nat)
    (h : pipeline.sink_done p id = true) :
    pipeline.sink_done (pipeline.tick p) id = true := by
  unfold pipeline.sink_done at h ⊢
  rw [tick_nodes_get]
  cases hq : p.nodes[id]? with
  | none => simp
  | some s =>
    cases s with
    | none => simp
    | some n =>
      simp only [hq] at h
      cases hmk : n.kind with
      | src k => simp [node.tick1, hmk]
      | snk =>
        simp only [hmk] at h
        have hcl : pipeline.node_status p n = poll.closed := beq_iff_eq.mp h
        have h2 := status_closed_tick p n hcl
        have ht : node.tick1 n = n := by simp [node.tick1, hmk]
        rw [ht] at h2
        simp [node.tick1, hmk, h2]

/-- All sinks staying closed is preserved by a tick. -/
theorem all_sinks_closed_tick (p : pipeline)
    (h : pipeline.all_sinks_closed p = true) :
    pipeline.all_sinks_closed (pipeline.tick p) = true := by
  unfold pipeline.all_sinks_closed at h ⊢
  rw [List.all_eq_true] at h ⊢
  intro id hid
  apply sink_done_tick
  apply h
  simpa [pipeline.tick, List.length_map] using hid

/-- Source-fed-ness of the graph is preserved by a tick. -/
theorem src_only_tick (p : pipeline) (h : pipeline.src_only p = true) :
    pipeline.src_only (pipeline.tick p) = true := by
  unfold pipeline.src_only at h ⊢
  rw [List.all_eq_true] at h ⊢
  intro c hc
  have hc2 : c ∈ p.connections := hc
  have h1 := h c hc2
  rw [tick_nodes_get]
  cases hu : p.nodes[c.1]? with
  | none => simp
  | some su =>
    cases su with
    | none => simp
    | some n =>
      simp only [hu] at h1
      cases hmk : n.kind with
      | src k => simp [node.tick1, hmk]
      | snk =>
        simp only [hmk] at h1
        exact absurd h1 (by simp)

/-- Source-fed-ness of the graph is preserved by iterated ticks. -/
theorem src_only_tick_iter (n : Nat) :
    ∀ p : pipeline, pipeline.src_only p = true →
      pipeline.src_only (pipeline.tick_iter n p) = true := by
  induction n with
  | zero => intro p h; exact h
  | succ n ih => intro p h; exact ih (pipeline.tick p) (src_only_tick p h)

/-- On a source-fed graph, completion forces every live sink closed: a sink
can appear as a connection source only in non-source-fed graphs, so every
live sink is terminal and the completion predicate covers it. -/
theorem sinks_closed_of_complete (p : pipeline)
    (hc : pipeline.complete p = true) (hs : pipeline.src_only p = true) :
    pipeline.all_sinks_closed p = true := by
  unfold pipeline.all_sinks_closed
  rw [List.all_eq_true]
  intro id hid
  unfold pipeline.sink_done
  cases hq : p.nodes[id]? with
  | none => rfl
  | some s =>
    cases s with
    | none => rfl
    | some n =>
      cases hmk : n.kind with
      | src k => simp [hq, hmk]
      | snk =>
        unfold pipeline.complete at hc
        rw [List.all_eq_true] at hc
        have hd := hc id hid
        unfold pipeline.node_done at hd
        simp only [hq] at hd
        have hno : pipeline.has_outgoing p id = false := by
          cases hv : pipeline.has_outgoing p id
          · rfl
          · exfalso
            unfold pipeline.has_outgoing at hv
            rw [List.any_eq_true] at hv
            obtain ⟨c, hcmem, hceq⟩ := hv
            have hcid : c.1 = id := beq_iff_eq.mp hceq
            unfold pipeline.src_only at hs
            rw [List.all_eq_true] at hs
            have hsc := hs c hcmem
            rw [hcid] at hsc
            simp only [hq, hmk] at hsc
            exact absurd hsc (by simp)
        rw [hno, Bool.false_or] at hd
        have hcl : pipeline.node_status p n = poll.closed := beq_iff_eq.mp hd
        simp [hq, hmk, hcl]

/-- The fuelled loop stops exactly at the first completing `step`, provided
enough fuel, and returns its post-tick state. -/
theorem run_fuel_exact : ∀ (m f : Nat) (p : pipeline), m < f →
    (∀ k, k < m → pipeline.complete (pipeline.tick_iter k p) = false) →
    pipeline.complete (pipeline.tick_iter m p) = true →
    pipeline.run_fuel f p = pipeline.tick_iter (m + 1) p := by
  intro m
  induction m with
  | zero =>
    intro f p hf h0 hm
    cases f with
    | zero => exact absurd hf (by omega)
    | succ f =>
      have hm2 : pipeline.complete p = true := hm
      show (if pipeline.complete p then pipeline.tick p
            else pipeline.run_fuel f (pipeline.tick p)) = _
      rw [if_pos hm2]
      rfl
  | succ m ih =>
    intro f p hf h0 hm
    cases f with
    | zero => exact absurd hf (by omega)
    | succ f =>
      have hc0 : pipeline.complete p = false := h0 0 (Nat.succ_pos m)
      show (if pipeline.complete p then pipeline.tick p
            else pipeline.run_fuel f (pipeline.tick p)) = _
      rw [if_neg (by simp [hc0])]
      exact ih f (pipeline.tick p) (by omega) (fun k hk => h0 (k + 1) (by omega)) hm

/-- C9 (spec-modelled). `run()` calls `step()` repeatedly until a step whose
polls report completion and then returns: there is a first tick `m` at which
the completion predicate holds — termination is unconditional because every
source carries only finitely many pending values — `run` performs exactly the
ticks up to and including that completing step, and in the state it returns
every live sink-shaped node reports `closed` (given that the recorded
connections all leave source nodes, as the spec's type-checked `connect`
guarantees for well-assembled graphs). -/
theorem claim_C9 (p : pipeline) (hwf : pipeline.src_only p = true) :
    ∃ m : Nat,
      (∀ k, k < m → pipeline.complete (pipeline.tick_iter k p) = false)
      ∧ pipeline.complete (pipeline.tick_iter m p) = true
      ∧ pipeline.run p = pipeline.tick_iter (m + 1) p
      ∧ pipeline.all_sinks_closed (pipeline.run p) = true := by
  have hex : ∃ n, pipeline.complete (pipeline.tick_iter n p) = true :=
    ⟨pipeline.sum_pending p, complete_at_sum p⟩
  have hmin : ∀ k, k < Nat.find hex →
      pipeline.complete (pipeline.tick_iter k p) = false := by
    intro k hk
    have hnot := Nat.find_min hex hk
    cases hv : pipeline.complete (pipeline.tick_iter k p)
    · rfl
    · exact absurd hv hnot
  have hspec := Nat.find_spec hex
  have hle : Nat.find hex < pipeline.sum_pending p + 1 := by
    have := Nat.find_min' hex (complete_at_sum p)
    omega
  have hrun : pipeline.run p = pipeline.tick_iter (Nat.find hex + 1) p :=
    run_fuel_exact (Nat.find hex) (pipeline.sum_pending p + 1) p hle hmin hspec
  refine ⟨Nat.find hex, hmin, hspec, hrun, ?_⟩
  rw [hrun, tick_iter_succ]
  exact all_sinks_closed_tick _
    (sinks_closed_of_complete _ hspec (src_only_tick_iter _ p hwf))

/-- C9 witness: a `source<int>` emitting 3 values connected to a `sink<int>`;
the graph is source-fed, so `run` terminates at the first completing step with
the sink closed. -/
theorem claim_C9_witness :
    pipeline.src_only
      { nodes := [some nodeA, some { nodeB_int with bindings := [some 0] }],
        connections := [(0, 1, 0)] } = true
    ∧ ∃ m : Nat,
        (∀ k, k < m → pipeline.complete (pipeline.tick_iter k
            { nodes := [some nodeA, some { nodeB_int with bindings := [some 0] }],
              connections := [(0, 1, 0)] }) = false)
        ∧ pipeline.complete (pipeline.tick_iter m
            { nodes := [some nodeA, some { nodeB_int with bindings := [some 0] }],
              connections := [(0, 1, 0)] }) = true
        ∧ pipeline.run
            { nodes := [some nodeA, some { nodeB_int with bindings := [some 0] }],
              connections := [(0, 1, 0)] }
            = pipeline.tick_iter (m + 1)
                { nodes := [some nodeA, some { nodeB_int with bindings := [some 0] }],
                  connections := [(0, 1, 0)] }
        ∧ pipeline.all_sinks_closed (pipeline.run
            { nodes := [some nodeA, some { nodeB_int with bindings := [some 0] }],
              connections := [(0, 1, 0)] }) = true :=
  ⟨by decide,
    claim_C9
      { nodes := [some nodeA, some { nodeB_int with bindings := [some 0] }],
        connections := [(0, 1, 0)] }
      (by decide)⟩
